import Mathlib

/-!
Shallow embedding of the diagnostics aggregation and control engine of
`src/diagnostics/server.mjs` (api4LLM), together with theorems settling the
frozen claims about it.  Machine time is passed explicitly as
epoch-milliseconds (`Int`); JavaScript `Date.parse` results are carried as
`Option Int` (`none` for the empty / unparseable case); JavaScript objects
become structures with absent string fields modelled as `""` and absent
numeric fields as `none`, matching the source's truthiness tests.
-/

namespace Api4LLM

/-- JavaScript string coalescing `a || b`: picks `a` unless it is empty. -/
def jsOr (a b : String) : String := if a = "" then b else a

/-- Substring test mirroring JavaScript `String.prototype.includes`. -/
def strContains (s sub : String) : Bool := decide (sub.toList <:+: s.toList)

/-- Prefix test mirroring JavaScript `String.prototype.startsWith`. -/
def strStartsWith (s p : String) : Bool := p.data.isPrefixOf s.data

/-- The whitespace characters JavaScript `String.prototype.trim` strips
(the exotic Unicode space classes are outside this model's inputs). -/
def isJsWhitespace (c : Char) : Bool :=
  c = ' ' || c = '\t' || c = '\n' || c = '\r' || c = '\x0b' || c = '\x0c'

/-- JavaScript `String.prototype.trim`, computed over the character list so
the kernel can evaluate it. -/
def jsTrim (s : String) : String :=
  String.mk (((s.data.dropWhile isJsWhitespace).reverse.dropWhile isJsWhitespace).reverse)

/-- JavaScript `String.prototype.toLowerCase` (ASCII range). -/
def jsToLower (s : String) : String := String.mk (s.data.map Char.toLower)

/-- `FRESHNESS_SEVERITY` table of `server.mjs` (lines 56-65); lookups of a
level outside the table yield 0, matching the source's `|| 0` fallback. -/
def FRESHNESS_SEVERITY (level : String) : Nat :=
  if level = "missing" then 0
  else if level = "configured" then 1
  else if level = "fresh" then 2
  else if level = "unknown" then 3
  else if level = "warning" then 4
  else if level = "stale" then 5
  else if level = "expired" then 6
  else if level = "error" then 7
  else 0

/-- `humanizeDurationMs` (lines 490-508).  `Math.round` of a non-negative
real is floor of the value plus one half, here computed in `Nat`. -/
def humanizeDurationMs (ms : Int) : String :=
  let abs := ms.natAbs
  let totalMinutes := (abs + 30000) / 60000
  let days := totalMinutes / 1440
  let hours := (totalMinutes % 1440) / 60
  let minutes := totalMinutes % 60
  if days > 0 then s!"{days}d {hours}h"
  else if hours > 0 then s!"{hours}h {minutes}m"
  else if minutes > 0 then s!"{minutes}m"
  else
    let seconds := max 1 ((abs + 500) / 1000)
    s!"{seconds}s"

/-- A credential file record as produced by `readAuthFiles` (lines 921-983).
The source stores ISO strings produced by `parseTimestamp`; we carry the
parsed epoch-milliseconds, `none` standing for the empty string (so that the
source's `file.expiresAt ? Date.parse(file.expiresAt) : NaN` followed by
`Number.isFinite` is the `Option` pattern match). -/
structure AuthFile where
  file : String
  provider : String
  email : String
  expiresAt : Option Int
  lastRefresh : Option Int
  modifiedAt : Option Int
  size : Nat
  parseError : String
deriving Repr, DecidableEq

/-- Result record of `evaluateOAuthFileFreshness`. -/
structure FreshnessResult where
  level : String
  message : String
  expiresInMs : Option Int
deriving Repr, DecidableEq

/-- `evaluateOAuthFileFreshness` (lines 510-589). -/
def evaluateOAuthFileFreshness (file : AuthFile) (nowMs : Int) : FreshnessResult :=
  if file.parseError ≠ "" then
    ⟨"error", "Token file cannot be parsed", none⟩
  else
    match file.expiresAt with
    | some expiryMs =>
      let delta := expiryMs - nowMs
      let dur := humanizeDurationMs delta
      if delta ≤ 0 then ⟨"expired", s!"Expired {dur} ago", some delta⟩
      else if delta ≤ 24 * 60 * 60 * 1000 then ⟨"warning", s!"Expires in {dur}", some delta⟩
      else ⟨"fresh", s!"Valid for {dur}", some delta⟩
    | none =>
      match file.lastRefresh with
      | some refreshMs =>
        let age := nowMs - refreshMs
        let dur := humanizeDurationMs age
        if age ≤ 7 * 24 * 60 * 60 * 1000 then ⟨"fresh", s!"Refreshed {dur} ago", none⟩
        else if age ≤ 30 * 24 * 60 * 60 * 1000 then ⟨"warning", s!"Refresh is {dur} old", none⟩
        else ⟨"stale", s!"Refresh is stale ({dur} old)", none⟩
      | none =>
        match file.modifiedAt with
        | some modifiedMs =>
          let age := nowMs - modifiedMs
          let dur := humanizeDurationMs age
          if age ≤ 30 * 24 * 60 * 60 * 1000 then
            ⟨"unknown", s!"No expiry metadata, file updated {dur} ago", none⟩
          else ⟨"stale", s!"No expiry metadata and file is old ({dur})", none⟩
        | none => ⟨"unknown", "No expiry metadata", none⟩

/-- C1: for a credential file with no parse error and a parseable expiry
timestamp, freshness at `nowMs` is `expired` when the expiry is at or before
now, `warning` when it is strictly after now but at most 24 hours away, and
`fresh` when it is more than 24 hours away. -/
theorem freshness_classification_correct (file : AuthFile) (nowMs e : Int)
    (hp : file.parseError = "") (he : file.expiresAt = some e) :
    (e ≤ nowMs → (evaluateOAuthFileFreshness file nowMs).level = "expired") ∧
    (nowMs < e → e ≤ nowMs + 24 * 60 * 60 * 1000 →
      (evaluateOAuthFileFreshness file nowMs).level = "warning") ∧
    (nowMs + 24 * 60 * 60 * 1000 < e →
      (evaluateOAuthFileFreshness file nowMs).level = "fresh") := by
  simp only [evaluateOAuthFileFreshness, hp, he, ne_eq, not_true_eq_false,
    if_false, ite_not]
  refine ⟨fun h => ?_, fun h1 h2 => ?_, fun h => ?_⟩ <;>
    · split_ifs with ha hb <;> first | rfl | omega

/-- Witness for C1 at concrete inputs: expiry 1000 ms evaluated at 2000 ms
is expired; at 999 ms (one millisecond left) it is a warning; at an expiry
25 hours ahead it is fresh. -/
theorem freshness_classification_correct_witness :
    (evaluateOAuthFileFreshness ⟨"claude.json", "claude", "", some 1000, none, none, 0, ""⟩
      2000).level = "expired" ∧
    (evaluateOAuthFileFreshness ⟨"claude.json", "claude", "", some 1000, none, none, 0, ""⟩
      999).level = "warning" ∧
    (evaluateOAuthFileFreshness ⟨"claude.json", "claude", "", some (25 * 60 * 60 * 1000), none, none, 0, ""⟩
      0).level = "fresh" :=
  ⟨(freshness_classification_correct _ 2000 1000 rfl rfl).1 (by decide),
   (freshness_classification_correct _ 999 1000 rfl rfl).2.1 (by decide) (by decide),
   (freshness_classification_correct _ 0 (25 * 60 * 60 * 1000) rfl rfl).2.2 (by decide)⟩

/-- `PROVIDER_ORDER` (line 54): the eight canonical provider identifiers in
their fixed display order. -/
def PROVIDER_ORDER : List String :=
  ["proxy-access", "claude", "codex", "gemini", "qwen", "iflow", "openai-compat", "unknown"]

/-- `normalizeProviderName` (lines 139-166). -/
def normalizeProviderName (raw : String) : String :=
  let value := jsToLower (jsTrim raw)
  if value = "" then "unknown"
  else if strContains value "proxy" || value = "api-keys" || value = "api_keys" then
    "proxy-access"
  else if strContains value "claude" || strContains value "anthropic" then "claude"
  else if strContains value "codex" || strContains value "openai" || value = "gpt" then "codex"
  else if strContains value "gemini" then "gemini"
  else if strContains value "qwen" then "qwen"
  else if strContains value "iflow" then "iflow"
  else if strContains value "compat" || strContains value "openrouter" then "openai-compat"
  else value

/-- C4 counterexample: the input "gpt-4o" contains "gpt", yet normalization
returns the raw string "gpt-4o", which is not one of the eight canonical
identifiers — so the function is not closed over the canonical set and the
claimed "contains gpt maps to codex" rule does not hold (the source tests
`value === "gpt"` exactly). -/
theorem normalizeProviderName_not_closed :
    normalizeProviderName "gpt-4o" = "gpt-4o" ∧ "gpt-4o" ∉ PROVIDER_ORDER := by
  decide

/-- C4 (amended): normalization returns one of the eight canonical
identifiers or, when no keyword rule matches, the trimmed lowercased input
itself; rules are first-match-wins in fixed priority: an input containing
"claude" or "anthropic" that the earlier proxy/api-keys rule does not catch
maps to `claude`, and an input containing "codex" or "openai" (or equal to
exactly "gpt") not caught by an earlier rule maps to `codex`. -/
theorem normalizeProviderName_range_and_rules (s : String) :
    (normalizeProviderName s ∈ PROVIDER_ORDER ∨
      normalizeProviderName s = jsToLower (jsTrim s)) ∧
    (strContains (jsToLower (jsTrim s)) "proxy" = false → jsToLower (jsTrim s) ≠ "api-keys" →
      jsToLower (jsTrim s) ≠ "api_keys" →
      (strContains (jsToLower (jsTrim s)) "claude" = true ∨
        strContains (jsToLower (jsTrim s)) "anthropic" = true) →
      normalizeProviderName s = "claude") ∧
    (strContains (jsToLower (jsTrim s)) "proxy" = false → jsToLower (jsTrim s) ≠ "api-keys" →
      jsToLower (jsTrim s) ≠ "api_keys" → strContains (jsToLower (jsTrim s)) "claude" = false →
      strContains (jsToLower (jsTrim s)) "anthropic" = false →
      (strContains (jsToLower (jsTrim s)) "codex" = true ∨
        strContains (jsToLower (jsTrim s)) "openai" = true ∨ jsToLower (jsTrim s) = "gpt") →
      normalizeProviderName s = "codex") := by
  refine ⟨?_, ?_, ?_⟩
  · simp only [normalizeProviderName]
    split_ifs <;> simp [PROVIDER_ORDER]
  · intro h1 h2 h3 h4
    simp only [normalizeProviderName]
    have hne : jsToLower (jsTrim s) ≠ "" := by
      rcases h4 with h | h <;> · intro hemp; rw [hemp] at h; exact absurd h (by decide)
    split_ifs with g1 g2 g3 <;> simp_all
  · intro h1 h2 h3 h4 h5 h6
    simp only [normalizeProviderName]
    have hne : jsToLower (jsTrim s) ≠ "" := by
      rcases h6 with h | h | h <;> · intro hemp; rw [hemp] at h; exact absurd h (by decide)
    split_ifs with g1 g2 g3 g4 <;> simp_all

/-- Witness for C4 (amended): "My-Anthropic-Login" normalizes to claude and
"OpenRouter" would not reach the codex rule, while "vendor: openai" does
map to codex. -/
theorem normalizeProviderName_range_and_rules_witness :
    normalizeProviderName "My-Anthropic-Login" = "claude" ∧
    normalizeProviderName "vendor openai" = "codex" :=
  ⟨(normalizeProviderName_range_and_rules "My-Anthropic-Login").2.1 (by decide) (by decide)
      (by decide) (by decide),
   (normalizeProviderName_range_and_rules "vendor openai").2.2 (by decide) (by decide)
      (by decide) (by decide) (by decide) (by decide)⟩

/-- The environment-derived settings the resolver reads (lines 17-22),
modelled as an explicit configuration record. -/
structure Config where
  dockerMode : String
  composeFile : String
  defaultService : String
  targetContainer : String
deriving Repr, DecidableEq

/-- Result record of `runCommand` (lines 92-137). -/
structure CmdResult where
  code : Int
  stdout : String
  stderr : String
  timedOut : Bool
deriving Repr, DecidableEq

/-- One JSON row of `docker compose ps --format json`, as consumed by
`normalizeComposeServiceState`; absent fields are `""` / `none`. -/
structure ComposeRow where
  Service : String
  Name : String
  Names : String
  Status : String
  State : String
  Image : String
  CreatedAt : String
  RunningFor : String
  ExitCode : Option Int
  ID : String
deriving Repr, DecidableEq

/-- One JSON row of `docker ps --format json`. -/
structure ContainerRow where
  Names : String
  Status : String
  Image : String
  CreatedAt : String
  RunningFor : String
  ID : String
deriving Repr, DecidableEq

/-- Parsed `docker inspect --format json .State` payload as produced by
`inspectContainerState` (lines 211-236); `none` at the call site models the
null returned on any failure. -/
structure InspectState where
  status : String
  running : Bool
  exitCode : Option Int
  startedAt : Option Int
  finishedAt : Option Int
deriving Repr, DecidableEq

/-- The per-service record both normalizers produce. -/
structure ServiceState where
  service : String
  container : String
  state : String
  status : String
  image : String
  createdAt : String
  runningFor : String
  exitCode : Option Int
  id : String
  running : Bool
  exited : Bool
deriving Repr, DecidableEq

/-- `deriveStateFromStatus` (lines 168-186). -/
def deriveStateFromStatus (statusRaw : String) : String :=
  let status := jsToLower (jsTrim statusRaw)
  if status = "" then "unknown"
  else if strStartsWith status "up" || strStartsWith status "running" then "running"
  else if strStartsWith status "exited" || strContains status "dead" then "exited"
  else if strContains status "restart" then "restarting"
  else if strContains status "created" then "created"
  else "unknown"

/-- `normalizeComposeServiceState` (lines 188-209). -/
def normalizeComposeServiceState (cfg : Config) (service : ComposeRow) : ServiceState :=
  let status := service.Status
  let inferred := deriveStateFromStatus status
  let composeState := jsToLower service.State
  let state := jsOr composeState inferred
  { service := jsOr service.Service (jsOr service.Name cfg.defaultService)
    container := jsOr service.Name (jsOr service.Names cfg.targetContainer)
    state := jsOr state "unknown"
    status := status
    image := service.Image
    createdAt := service.CreatedAt
    runningFor := service.RunningFor
    exitCode := service.ExitCode
    id := service.ID
    running := state == "running"
    exited := state == "exited" }

/-- `normalizeContainerState` (lines 238-259). -/
def normalizeContainerState (cfg : Config) (row : ContainerRow)
    (inspectState : Option InspectState) : ServiceState :=
  let status := row.Status
  let inferred := deriveStateFromStatus status
  let inspectStatus := match inspectState with | some i => i.status | none => ""
  let state := jsOr inspectStatus inferred
  { service := cfg.defaultService
    container := jsOr row.Names cfg.targetContainer
    state := jsOr state "unknown"
    status := status
    image := row.Image
    createdAt := row.CreatedAt
    runningFor := row.RunningFor
    exitCode := match inspectState with | some i => i.exitCode | none => none
    id := row.ID
    running := match inspectState with | some i => i.running | none => state == "running"
    exited := state == "exited" }

/-- The service-summary document (lines 285-296 and friends); `generatedAt`
carries the epoch-milliseconds whose ISO rendering the source stores. -/
structure Summary where
  generatedAt : Int
  backend : String
  dockerMode : String
  dockerAvailable : Bool
  composeFile : String
  defaultService : String
  defaultContainer : String
  overallState : String
  services : List ServiceState
  commandError : String
deriving Repr, DecidableEq

/-- The synthesized `not-created` placeholder row (lines 266-280). -/
def notCreatedService (cfg : Config) : ServiceState :=
  { service := cfg.defaultService
    container := cfg.targetContainer
    state := "not-created"
    status := "Container not created yet"
    image := ""
    createdAt := ""
    runningFor := ""
    exitCode := none
    id := ""
    running := false
    exited := false }

/-- `getComposeServiceSummary` (lines 261-297).  `rows` stands for
`splitJSONLines(composeResult.stdout)`: the JSON-line parsing of the tool's
output is abstracted to the list of parsed records. -/
def getComposeServiceSummary (cfg : Config) (now : Int) (res : CmdResult)
    (rows : List ComposeRow) : Summary :=
  let dockerOk := res.code == 0
  let services := if dockerOk then rows.map (normalizeComposeServiceState cfg) else []
  let services := if services.isEmpty && dockerOk then [notCreatedService cfg] else services
  let primary := (services.find? (fun svc => svc.service == cfg.defaultService)) <|> services.head?
  let overallState := match primary with
    | none => "unknown"
    | some p => if p.running then "running" else p.state
  { generatedAt := now
    backend := "compose"
    dockerMode := cfg.dockerMode
    dockerAvailable := dockerOk
    composeFile := cfg.composeFile
    defaultService := cfg.defaultService
    defaultContainer := cfg.targetContainer
    overallState := overallState
    services := services
    commandError :=
      if dockerOk then ""
      else jsTrim (jsOr res.stderr (jsOr res.stdout "docker compose command failed")) }

/-- `getContainerServiceSummary` (lines 299-364); `rows` abstracts
`splitJSONLines(result.stdout)` and `inspectState` the awaited
`inspectContainerState` result for the first row. -/
def getContainerServiceSummary (cfg : Config) (now : Int) (res : CmdResult)
    (rows : List ContainerRow) (inspectState : Option InspectState) : Summary :=
  let base : Summary :=
    { generatedAt := now
      backend := "container"
      dockerMode := cfg.dockerMode
      dockerAvailable := true
      composeFile := cfg.composeFile
      defaultService := cfg.defaultService
      defaultContainer := cfg.targetContainer
      overallState := "unknown"
      services := []
      commandError := "" }
  if !(res.code == 0) then
    { base with
      dockerAvailable := false
      commandError := jsTrim (jsOr res.stderr (jsOr res.stdout "docker ps command failed")) }
  else
    match rows with
    | [] => { base with overallState := "not-created", services := [notCreatedService cfg] }
    | row :: _ =>
      let primary := normalizeContainerState cfg row inspectState
      { base with
        overallState := if primary.running then "running" else primary.state
        services := [primary] }

/-- `getServiceSummary` (lines 366-386): mode dispatch with automatic
compose-then-direct fallback. -/
def getServiceSummary (cfg : Config) (now : Int) (composeRes : CmdResult)
    (composeRows : List ComposeRow) (containerRes : CmdResult)
    (containerRows : List ContainerRow) (inspectState : Option InspectState) : Summary :=
  if cfg.dockerMode = "compose" then getComposeServiceSummary cfg now composeRes composeRows
  else if cfg.dockerMode = "container" then
    getContainerServiceSummary cfg now containerRes containerRows inspectState
  else
    let compose := getComposeServiceSummary cfg now composeRes composeRows
    if compose.dockerAvailable then compose
    else
      let container := getContainerServiceSummary cfg now containerRes containerRows inspectState
      if container.dockerAvailable then
        if container.commandError = "" ∧ compose.commandError ≠ "" then
          { container with commandError := compose.commandError }
        else container
      else compose

theorem jsOr_of_ne (a b : String) (h : a ≠ "") : jsOr a b = a := by
  simp [jsOr, h]

theorem jsOr_empty_left (b : String) : jsOr "" b = b := by
  simp [jsOr]

theorem jsOr_ne_empty (a b : String) (h : b ≠ "") : jsOr a b ≠ "" := by
  unfold jsOr
  split_ifs with ha
  · exact h
  · exact ha

theorem deriveStateFromStatus_ne_empty (s : String) : deriveStateFromStatus s ≠ "" := by
  simp only [deriveStateFromStatus]
  split_ifs <;> decide

/-- C7 counterexample: a paused container (docker reports inspect Status
"paused" with Running true) yields a record with `running = true` while
`state = "paused"`, so `running` is not equivalent to `state = "running"`
for the direct-container normalizer. -/
theorem container_running_flag_counterexample :
    ¬(((normalizeContainerState ⟨"auto", "docker-compose.yml", "api4llm", "api4llm"⟩
          ⟨"api4llm", "Up 2 hours (Paused)", "img", "", "", "abc"⟩
          (some ⟨"paused", true, none, none, none⟩)).running = true) ↔
      ((normalizeContainerState ⟨"auto", "docker-compose.yml", "api4llm", "api4llm"⟩
          ⟨"api4llm", "Up 2 hours (Paused)", "img", "", "", "abc"⟩
          (some ⟨"paused", true, none, none, none⟩)).state = "running")) := by
  decide

/-- C7 (amended): `running` is equivalent to `state = "running"` for every
record of the compose normalizer and for the direct-container normalizer
whenever no inspect data is available; when inspect data is present the
direct normalizer takes `running` verbatim from the inspect payload's
Running flag, which may disagree with `state`. -/
theorem running_flag_characterization :
    (∀ cfg svc, (normalizeComposeServiceState cfg svc).running =
      ((normalizeComposeServiceState cfg svc).state == "running")) ∧
    (∀ cfg row, (normalizeContainerState cfg row none).running =
      ((normalizeContainerState cfg row none).state == "running")) ∧
    (∀ cfg row i, (normalizeContainerState cfg row (some i)).running = i.running) := by
  refine ⟨fun cfg svc => ?_, fun cfg row => ?_, fun cfg row i => rfl⟩
  · have h2 : jsOr (jsToLower svc.State) (deriveStateFromStatus svc.Status) ≠ "" :=
      jsOr_ne_empty _ _ (deriveStateFromStatus_ne_empty _)
    simp only [normalizeComposeServiceState]
    rw [jsOr_of_ne _ _ h2]
  · have h1 : deriveStateFromStatus row.Status ≠ "" := deriveStateFromStatus_ne_empty _
    simp only [normalizeContainerState]
    rw [jsOr_empty_left, jsOr_of_ne _ _ h1]

theorem container_available_commandError (cfg : Config) (now : Int) (res : CmdResult)
    (rows : List ContainerRow) (ins : Option InspectState)
    (hd : (getContainerServiceSummary cfg now res rows ins).dockerAvailable = true) :
    (getContainerServiceSummary cfg now res rows ins).commandError = "" := by
  rcases rows with _ | ⟨row, rest⟩
  all_goals
    unfold getContainerServiceSummary at hd ⊢
    split_ifs at hd ⊢
    all_goals simp_all

/-- C3 counterexample: in automatic mode, with the compose call failing
(exit 1, stderr "boom") and the direct call succeeding, the resolver's
summary is not equal to the direct call's own summary — the resolver
copies the compose failure text into `commandError`, which the direct
summary leaves empty. -/
theorem auto_fallback_not_direct_summary :
    getServiceSummary ⟨"auto", "docker-compose.yml", "api4llm", "api4llm"⟩ 0
        ⟨1, "", "boom", false⟩ [] ⟨0, "", "", false⟩
        [⟨"api4llm", "Up 2 hours", "img", "", "", "abc"⟩] none ≠
      getContainerServiceSummary ⟨"auto", "docker-compose.yml", "api4llm", "api4llm"⟩ 0
        ⟨0, "", "", false⟩ [⟨"api4llm", "Up 2 hours", "img", "", "", "abc"⟩] none := by
  decide

/-- C3 (amended): in automatic mode, when the compose call fails and the
direct call succeeds, the resolver returns the direct call's summary except
that its `commandError` field carries the compose call's error text (a
no-op when that text is empty); `dockerAvailable` reflects the direct
call's success. -/
theorem auto_fallback_uses_direct_summary (cfg : Config) (now : Int)
    (cres : CmdResult) (crows : List ComposeRow) (dres : CmdResult)
    (drows : List ContainerRow) (ins : Option InspectState)
    (hm1 : cfg.dockerMode ≠ "compose") (hm2 : cfg.dockerMode ≠ "container")
    (hc : (getComposeServiceSummary cfg now cres crows).dockerAvailable = false)
    (hd : (getContainerServiceSummary cfg now dres drows ins).dockerAvailable = true) :
    getServiceSummary cfg now cres crows dres drows ins =
      { getContainerServiceSummary cfg now dres drows ins with
        commandError := (getComposeServiceSummary cfg now cres crows).commandError } ∧
    (getServiceSummary cfg now cres crows dres drows ins).dockerAvailable = true := by
  have hce := container_available_commandError cfg now dres drows ins hd
  have hmain : getServiceSummary cfg now cres crows dres drows ins =
      { getContainerServiceSummary cfg now dres drows ins with
        commandError := (getComposeServiceSummary cfg now cres crows).commandError } := by
    unfold getServiceSummary
    rw [if_neg hm1, if_neg hm2]
    simp only [hc, Bool.false_eq_true, if_false, hd, if_true]
    by_cases hcc : (getComposeServiceSummary cfg now cres crows).commandError = ""
    · rw [if_neg (by simp [hcc])]
      rw [hcc, ← hce, ← hd]
    · rw [if_pos ⟨hce, hcc⟩, ← hd]
  refine ⟨hmain, ?_⟩
  rw [hmain]
  exact hd

/-- Witness for C3 (amended) at the concrete failing-compose /
succeeding-direct inputs of the counterexample. -/
theorem auto_fallback_uses_direct_summary_witness :
    getServiceSummary ⟨"auto", "docker-compose.yml", "api4llm", "api4llm"⟩ 0
        ⟨1, "", "boom", false⟩ [] ⟨0, "", "", false⟩
        [⟨"api4llm", "Up 2 hours", "img", "", "", "abc"⟩] none =
      { getContainerServiceSummary ⟨"auto", "docker-compose.yml", "api4llm", "api4llm"⟩ 0
          ⟨0, "", "", false⟩ [⟨"api4llm", "Up 2 hours", "img", "", "", "abc"⟩] none with
        commandError := (getComposeServiceSummary
          ⟨"auto", "docker-compose.yml", "api4llm", "api4llm"⟩ 0
          ⟨1, "", "boom", false⟩ []).commandError } :=
  (auto_fallback_uses_direct_summary _ _ _ _ _ _ _ (by decide) (by decide)
    (by decide) (by decide)).1

/-- `PROVIDER_LABELS` (lines 43-52). -/
def PROVIDER_LABELS (p : String) : Option String :=
  if p = "proxy-access" then some "Proxy Access"
  else if p = "claude" then some "Claude"
  else if p = "codex" then some "Codex/OpenAI"
  else if p = "gemini" then some "Gemini"
  else if p = "qwen" then some "Qwen"
  else if p = "iflow" then some "iFlow"
  else if p = "openai-compat" then some "OpenAI-Compatible"
  else if p = "unknown" then some "Unknown"
  else none

/-- A regex word character, for the `\b\w` capitalization in
`formatProviderLabel`. -/
def isWordChar (c : Char) : Bool := c.isAlphanum || c = '_'

/-- Uppercase every word character that starts a word (the flag records
whether the previous character was a word character). -/
def capWords : Bool → List Char → List Char
  | _, [] => []
  | prevWord, c :: rest =>
    (if !prevWord && isWordChar c then c.toUpper else c) :: capWords (isWordChar c) rest

/-- `formatProviderLabel` (lines 591-593). -/
def formatProviderLabel (provider : String) : String :=
  match PROVIDER_LABELS provider with
  | some l => l
  | none => String.mk (capWords false (provider.data.map fun c => if c = '-' then ' ' else c))

/-- Provider key under which `buildProviderHealth` groups a credential
file (line 818). -/
def fileProvider (f : AuthFile) : String := normalizeProviderName (jsOr f.provider "unknown")

/-- One step of the `grouped` map construction (lines 817-822): append the
file to its provider's bucket, keeping first-insertion key order. -/
def pushGroup (acc : List (String × List AuthFile)) (p : String) (f : AuthFile) :
    List (String × List AuthFile) :=
  if acc.any (fun e => e.1 == p) then
    acc.map (fun e => if e.1 == p then (e.1, e.2 ++ [f]) else e)
  else acc ++ [(p, [f])]

/-- The `grouped` map of `buildProviderHealth`, as an association list in
JavaScript `Map` insertion order. -/
def groupFiles (files : List AuthFile) : List (String × List AuthFile) :=
  files.foldl (fun acc f => pushGroup acc (fileProvider f) f) []

/-- `grouped.get(provider) || []`. -/
def groupLookup (g : List (String × List AuthFile)) (p : String) : List AuthFile :=
  match g.find? (fun e => e.1 == p) with
  | some e => e.2
  | none => []

/-- `Number(staticCounts[provider] || 0)` over the statically-keyed counts
object, modelled as an association list in key insertion order. -/
def countsLookup (counts : List (String × Nat)) (p : String) : Nat :=
  match counts.find? (fun e => e.1 == p) with
  | some e => e.2
  | none => 0

/-- JavaScript `Set` built from a list: deduplicate keeping the first
occurrence of each element (iteration order of `new Set([...])`). -/
def jsSetList (l : List String) : List String :=
  l.foldl (fun acc x => if x ∈ acc then acc else acc ++ [x]) []

/-- Position of a provider in `PROVIDER_ORDER` (`indexOf`, `none` for -1). -/
def providerIdx (p : String) : Option Nat := PROVIDER_ORDER.indexOf? p

/-- Boolean form of the provider comparator of lines 826-839 (and
`sortProviders`, lines 696-709): canonical providers ordered by their fixed
index and before all others; other providers ordered lexicographically
(`localeCompare` restricted to the lowercase ASCII names in play). -/
def providerLE (a b : String) : Bool :=
  match providerIdx a, providerIdx b with
  | some i, some j => i ≤ j
  | some _, none => true
  | none, some _ => false
  | none, none => a ≤ b

/-- Insert into a `providerLE`-sorted list (kept structurally recursive so
the kernel can evaluate concrete sorts). -/
def insertLE (x : String) : List String → List String
  | [] => [x]
  | y :: ys => if providerLE x y then x :: y :: ys else y :: insertLE x ys

/-- The `[...providers].sort(comparator)` of lines 826-839: `providerLE` is
antisymmetric on the deduplicated provider names in play, so any comparator
sort agrees with this insertion sort. -/
def jsSortProviders (l : List String) : List String := l.foldr insertLE []

/-- One output row of `buildProviderHealth`; `soonestExpiry`/`latestRefresh`
carry the epoch-milliseconds whose ISO rendering the source stores. -/
structure ProviderHealthEntry where
  provider : String
  label : String
  status : String
  statusMessage : String
  authMode : String
  oauthCount : Nat
  staticKeyCount : Nat
  expiredCount : Nat
  expiringSoonCount : Nat
  parseErrors : Nat
  soonestExpiry : Option Int
  latestRefresh : Option Int
deriving Repr, DecidableEq

/-- The update step of the `worst` scan (lines 852-857): keep the candidate
only when its severity is strictly greater. -/
def worstStep (w c : FreshnessResult) : FreshnessResult :=
  if FRESHNESS_SEVERITY c.level > FRESHNESS_SEVERITY w.level then c else w

/-- The loop body of `buildProviderHealth` for one provider
(lines 843-916). -/
def providerEntry (nowMs : Int) (provider : String) (oauthEntries : List AuthFile)
    (staticKeyCount : Nat) : ProviderHealthEntry :=
  let evaluations := oauthEntries.map (fun e => evaluateOAuthFileFreshness e nowMs)
  let worst := match evaluations with
    | [] => (⟨"unknown", "No health data", none⟩ : FreshnessResult)
    | w0 :: _ => evaluations.foldl worstStep w0
  let status :=
    if oauthEntries.length > 0 then worst.level
    else if staticKeyCount > 0 then "configured"
    else "missing"
  let statusMessage :=
    if oauthEntries.length > 0 then worst.message
    else if staticKeyCount > 0 then s!"{staticKeyCount} static API key(s) configured"
    else "No credentials configured"
  let expiryValues := oauthEntries.filterMap (fun e => e.expiresAt)
  let soonestExpiry := match expiryValues with
    | [] => none
    | v :: vs => some (vs.foldl min v)
  let refreshValues := oauthEntries.filterMap (fun e => e.lastRefresh <|> e.modifiedAt)
  let latestRefresh := match refreshValues with
    | [] => none
    | v :: vs => some (vs.foldl max v)
  let expiredCount := (expiryValues.filter (fun ts => ts ≤ nowMs)).length
  let expiringSoonCount :=
    (expiryValues.filter (fun ts => nowMs < ts ∧ ts ≤ nowMs + 24 * 60 * 60 * 1000)).length
  let parseErrors := (oauthEntries.filter (fun e => e.parseError ≠ "")).length
  let authMode :=
    if oauthEntries.length > 0 ∧ staticKeyCount > 0 then "mixed"
    else if oauthEntries.length > 0 then "oauth"
    else if staticKeyCount > 0 then "api-keys"
    else "none"
  { provider := provider
    label := formatProviderLabel provider
    status := status
    statusMessage := statusMessage
    authMode := authMode
    oauthCount := oauthEntries.length
    staticKeyCount := staticKeyCount
    expiredCount := expiredCount
    expiringSoonCount := expiringSoonCount
    parseErrors := parseErrors
    soonestExpiry := soonestExpiry
    latestRefresh := latestRefresh }

/-- `buildProviderHealth` (lines 814-919), with the current time passed
explicitly. -/
def buildProviderHealth (files : List AuthFile) (staticCounts : List (String × Nat))
    (nowMs : Int) : List ProviderHealthEntry :=
  let grouped := groupFiles files
  let providers := jsSetList (PROVIDER_ORDER ++ staticCounts.map Prod.fst ++ grouped.map Prod.fst)
  let orderedProviders := jsSortProviders providers
  orderedProviders.map (fun p => providerEntry nowMs p (groupLookup grouped p) (countsLookup staticCounts p))

theorem providerEntry_provider (nowMs : Int) (p : String) (G : List AuthFile) (c : Nat) :
    (providerEntry nowMs p G c).provider = p := rfl

theorem providerEntry_status_empty (nowMs : Int) (p : String) (c : Nat) :
    (providerEntry nowMs p [] c).status = if c > 0 then "configured" else "missing" := rfl

theorem providerEntry_status_nonempty (nowMs : Int) (p : String) (c : Nat)
    (f0 : AuthFile) (fs : List AuthFile) :
    (providerEntry nowMs p (f0 :: fs) c).status =
      (((f0 :: fs).map (fun f => evaluateOAuthFileFreshness f nowMs)).foldl worstStep
        (evaluateOAuthFileFreshness f0 nowMs)).level := by
  simp only [providerEntry, List.map_cons, List.length_cons]
  rw [if_pos (Nat.succ_pos fs.length)]

theorem worstFold_spec (w0 : FreshnessResult) (l : List FreshnessResult) :
    (∀ c ∈ l, FRESHNESS_SEVERITY c.level ≤ FRESHNESS_SEVERITY (l.foldl worstStep w0).level) ∧
    FRESHNESS_SEVERITY w0.level ≤ FRESHNESS_SEVERITY (l.foldl worstStep w0).level ∧
    (l.foldl worstStep w0 = w0 ∨ l.foldl worstStep w0 ∈ l) := by
  induction l generalizing w0 with
  | nil => simp
  | cons c cs ih =>
    simp only [List.foldl_cons]
    obtain ⟨ih1, ih2, ih3⟩ := ih (worstStep w0 c)
    have hstep : FRESHNESS_SEVERITY w0.level ≤ FRESHNESS_SEVERITY (worstStep w0 c).level ∧
        FRESHNESS_SEVERITY c.level ≤ FRESHNESS_SEVERITY (worstStep w0 c).level ∧
        (worstStep w0 c = w0 ∨ worstStep w0 c = c) := by
      unfold worstStep
      split_ifs with h
      · exact ⟨le_of_lt h, le_refl _, Or.inr rfl⟩
      · exact ⟨le_refl _, Nat.le_of_not_lt h, Or.inl rfl⟩
    refine ⟨?_, le_trans hstep.1 ih2, ?_⟩
    · intro d hd
      rcases List.mem_cons.mp hd with rfl | hd
      · exact le_trans hstep.2.1 ih2
      · exact ih1 d hd
    · rcases ih3 with h | h
      · rcases hstep.2.2 with h2 | h2
        · exact Or.inl (h.trans h2)
        · exact Or.inr (by rw [h, h2]; exact List.mem_cons_self c cs)
      · exact Or.inr (List.mem_cons_of_mem c h)

/-- C2: for every entry of the provider-health output, when the provider has
credential files grouped under it the rollup `status` is the
maximum-severity freshness level among those files' classifications (some
file attains it and none exceeds it, severities per `FRESHNESS_SEVERITY`);
when it has none, the rollup is `configured` exactly when the static key
count is positive and `missing` otherwise. -/
theorem provider_rollup_status (files : List AuthFile) (staticCounts : List (String × Nat))
    (nowMs : Int) (e : ProviderHealthEntry)
    (he : e ∈ buildProviderHealth files staticCounts nowMs) :
    (groupLookup (groupFiles files) e.provider ≠ [] →
      (∀ f ∈ groupLookup (groupFiles files) e.provider,
        FRESHNESS_SEVERITY (evaluateOAuthFileFreshness f nowMs).level ≤
          FRESHNESS_SEVERITY e.status) ∧
      (∃ f ∈ groupLookup (groupFiles files) e.provider,
        (evaluateOAuthFileFreshness f nowMs).level = e.status)) ∧
    (groupLookup (groupFiles files) e.provider = [] →
      e.status = if countsLookup staticCounts e.provider > 0 then "configured" else "missing") := by
  simp only [buildProviderHealth] at he
  obtain ⟨p, hp, rfl⟩ := List.mem_map.mp he
  simp only [providerEntry_provider]
  constructor
  · intro hne
    rcases hG : groupLookup (groupFiles files) p with _ | ⟨f0, fs⟩
    · exact absurd hG hne
    · have hspec := worstFold_spec (evaluateOAuthFileFreshness f0 nowMs)
        ((f0 :: fs).map (fun f => evaluateOAuthFileFreshness f nowMs))
      constructor
      · intro f hf
        rw [providerEntry_status_nonempty]
        exact hspec.1 _ (List.mem_map_of_mem _ hf)
      · rw [providerEntry_status_nonempty]
        rcases hspec.2.2 with h | h
        · exact ⟨f0, List.mem_cons_self f0 fs, by rw [h]⟩
        · obtain ⟨f, hf, hfe⟩ := List.mem_map.mp h
          exact ⟨f, hf, by rw [hfe]⟩
  · intro hempty
    rw [hempty, providerEntry_status_empty]

/-- Witness for C2: one claude credential file already expired at the
evaluation time; the rollup status is attained by some grouped file. -/
theorem provider_rollup_status_witness :
    ∃ f ∈ groupLookup (groupFiles [⟨"claude.json", "claude", "", some 1000, none, none, 0, ""⟩])
        "claude",
      (evaluateOAuthFileFreshness f 2000).level =
        (providerEntry 2000 "claude"
          (groupLookup (groupFiles [⟨"claude.json", "claude", "", some 1000, none, none, 0, ""⟩])
            "claude")
          (countsLookup [] "claude")).status :=
  ((provider_rollup_status [⟨"claude.json", "claude", "", some 1000, none, none, 0, ""⟩] [] 2000
      (providerEntry 2000 "claude"
        (groupLookup (groupFiles [⟨"claude.json", "claude", "", some 1000, none, none, 0, ""⟩])
          "claude")
        (countsLookup [] "claude"))
      (by decide)).1 (by decide)).2

theorem mem_jsSetList (l : List String) (x : String) : x ∈ jsSetList l ↔ x ∈ l := by
  have aux : ∀ (l acc : List String),
      x ∈ l.foldl (fun acc y => if y ∈ acc then acc else acc ++ [y]) acc ↔ x ∈ acc ∨ x ∈ l := by
    intro l
    induction l with
    | nil => intro acc; simp
    | cons y ys ih =>
      intro acc
      simp only [List.foldl_cons]
      rw [ih]
      by_cases h : y ∈ acc
      · rw [if_pos h]
        constructor
        · rintro (hx | hx)
          · exact Or.inl hx
          · exact Or.inr (List.mem_cons_of_mem _ hx)
        · rintro (hx | hx)
          · exact Or.inl hx
          · rcases List.mem_cons.mp hx with rfl | hx
            · exact Or.inl h
            · exact Or.inr hx
      · rw [if_neg h]
        simp only [List.mem_append, List.mem_singleton, List.mem_cons]
        tauto
  unfold jsSetList
  rw [aux]
  simp

theorem providerLE_trans (a b c : String) (h1 : providerLE a b = true)
    (h2 : providerLE b c = true) : providerLE a c = true := by
  unfold providerLE at h1 h2 ⊢
  cases ha : providerIdx a <;> cases hb : providerIdx b <;> cases hc : providerIdx c <;>
    simp only [ha, hb, hc, decide_eq_true_eq, Bool.false_eq_true] at h1 h2 ⊢ <;>
    first
      | omega
      | exact le_trans h1 h2

theorem providerLE_total (a b : String) : (providerLE a b || providerLE b a) = true := by
  unfold providerLE
  cases ha : providerIdx a <;> cases hb : providerIdx b <;>
    simp only [ha, hb, Bool.or_eq_true, decide_eq_true_eq] <;>
    first
      | exact le_total a b
      | omega
      | trivial

theorem mem_insertLE (x z : String) (l : List String) :
    z ∈ insertLE x l ↔ z = x ∨ z ∈ l := by
  induction l with
  | nil => simp [insertLE]
  | cons y ys ih =>
    simp only [insertLE]
    split_ifs with hc
    · simp [List.mem_cons]
    · simp only [List.mem_cons, ih]
      tauto

theorem mem_jsSortProviders (z : String) (l : List String) :
    z ∈ jsSortProviders l ↔ z ∈ l := by
  induction l with
  | nil => simp [jsSortProviders]
  | cons y ys ih =>
    simp only [jsSortProviders, List.foldr_cons] at ih ⊢
    rw [mem_insertLE, ih, List.mem_cons]

theorem pairwise_insertLE (x : String) (l : List String)
    (h : l.Pairwise (fun a b => providerLE a b = true)) :
    (insertLE x l).Pairwise (fun a b => providerLE a b = true) := by
  induction l with
  | nil => simp [insertLE]
  | cons y ys ih =>
    obtain ⟨h1, h2⟩ := List.pairwise_cons.mp h
    simp only [insertLE]
    split_ifs with hc
    · refine List.Pairwise.cons ?_ h
      intro z hz
      rcases List.mem_cons.mp hz with rfl | hz
      · exact hc
      · exact providerLE_trans x y z hc (h1 z hz)
    · have hyx : providerLE y x = true := by
        have htot := providerLE_total x y
        simp only [Bool.or_eq_true] at htot
        rcases htot with hxy | hyx
        · exact absurd hxy hc
        · exact hyx
      refine List.Pairwise.cons ?_ (ih h2)
      intro z hz
      rcases (mem_insertLE x z ys).mp hz with rfl | hz
      · exact hyx
      · exact h1 z hz

theorem pairwise_jsSortProviders (l : List String) :
    (jsSortProviders l).Pairwise (fun a b => providerLE a b = true) := by
  induction l with
  | nil => simp [jsSortProviders]
  | cons y ys ih => exact pairwise_insertLE y _ ih

/-- C9: the provider-health output always has a row for every canonical
provider; a row whose provider has no credential files and no static keys
reports status `missing` with auth mode `none`; and the rows appear in the
comparator order `providerLE` — canonical providers by their fixed
`PROVIDER_ORDER` position, all before non-canonical ones, which are sorted
alphabetically among themselves. -/
theorem provider_health_covers_canonical (files : List AuthFile)
    (staticCounts : List (String × Nat)) (nowMs : Int) :
    (∀ p ∈ PROVIDER_ORDER, ∃ e ∈ buildProviderHealth files staticCounts nowMs,
      e.provider = p) ∧
    (∀ e ∈ buildProviderHealth files staticCounts nowMs,
      groupLookup (groupFiles files) e.provider = [] →
      countsLookup staticCounts e.provider = 0 →
      e.status = "missing" ∧ e.authMode = "none") ∧
    ((buildProviderHealth files staticCounts nowMs).map ProviderHealthEntry.provider).Pairwise
      (fun a b => providerLE a b = true) := by
  refine ⟨?_, ?_, ?_⟩
  · intro p hp
    have hmem : p ∈ jsSortProviders (jsSetList (PROVIDER_ORDER ++ staticCounts.map Prod.fst ++
        (groupFiles files).map Prod.fst)) := by
      rw [mem_jsSortProviders, mem_jsSetList]
      exact List.mem_append_left _ (List.mem_append_left _ hp)
    exact ⟨providerEntry nowMs p (groupLookup (groupFiles files) p)
      (countsLookup staticCounts p), List.mem_map_of_mem _ hmem, rfl⟩
  · intro e he h1 h2
    simp only [buildProviderHealth] at he
    obtain ⟨p, hp, rfl⟩ := List.mem_map.mp he
    simp only [providerEntry_provider] at h1 h2
    rw [h1, h2]
    exact ⟨rfl, rfl⟩
  · have hmap : (buildProviderHealth files staticCounts nowMs).map ProviderHealthEntry.provider =
        jsSortProviders (jsSetList (PROVIDER_ORDER ++ staticCounts.map Prod.fst ++
          (groupFiles files).map Prod.fst)) := by
      simp only [buildProviderHealth, List.map_map]
      exact List.map_id _
    rw [hmap]
    exact pairwise_jsSortProviders _

/-- Witness for C9 at concrete inputs: with no credential files and no
static keys, the qwen row exists and reports missing/none. -/
theorem provider_health_covers_canonical_witness :
    (providerEntry 0 "qwen" (groupLookup (groupFiles []) "qwen")
        (countsLookup [] "qwen")).status = "missing" ∧
    (providerEntry 0 "qwen" (groupLookup (groupFiles []) "qwen")
        (countsLookup [] "qwen")).authMode = "none" :=
  (provider_health_covers_canonical [] [] 0).2.1
    (providerEntry 0 "qwen" (groupLookup (groupFiles []) "qwen") (countsLookup [] "qwen"))
    (by decide) (by decide) (by decide)

/-- `normalizeModelID` (lines 595-604): trim, then strip one leading
literal "models/" segment. -/
def normalizeModelID (raw : String) : String :=
  let trimmed := jsTrim raw
  if trimmed = "" then ""
  else if strStartsWith trimmed "models/" then String.mk (trimmed.data.drop 7)
  else trimmed

/-- `inferProviderFromModel` (lines 606-639). -/
def inferProviderFromModel (modelID ownedBy : String) : String :=
  let owner := normalizeProviderName ownedBy
  if owner ≠ "unknown" ∧ owner ≠ "proxy-access" ∧ owner ≠ "openai-compat" then owner
  else
    let id := jsToLower (jsTrim modelID)
    if id = "" then "unknown"
    else if strContains id "claude" then "claude"
    else if strContains id "gemini" then "gemini"
    else if strContains id "qwen" then "qwen"
    else if strContains id "iflow" then "iflow"
    else if strContains id "gpt" || strContains id "o1" || strContains id "o3" ||
        strContains id "o4" || strContains id "codex" || strContains id "chatgpt" then "codex"
    else if owner ≠ "unknown" then owner
    else "unknown"

/-- One value of the `entries` map of `getProviderModels`; `sources` is the
JavaScript `Set` in insertion order. -/
structure ModelEntry where
  provider : String
  id : String
  displayName : String
  ownedBy : String
  sources : List String
deriving Repr, DecidableEq

/-- The map key `provider::normalizedID` (line 723). -/
def entryKey (e : ModelEntry) : String := e.provider ++ "::" ++ e.id

/-- `Set.add`: append unless already present. -/
def addSource (ss : List String) (s : String) : List String :=
  if s ∈ ss then ss else ss ++ [s]

/-- The merge arm of `collect` (lines 725-731): update the existing entry
in place — add the source, and take the incoming display name only when the
stored one is empty and the incoming one is not. -/
def mergeAt (key source displayName : String) (es : List ModelEntry) : List ModelEntry :=
  es.map (fun e =>
    if entryKey e == key then
      { e with
        sources := addSource e.sources source
        displayName :=
          if e.displayName = "" ∧ displayName ≠ "" then displayName else e.displayName }
    else e)

/-- The `collect` closure of `getProviderModels` (lines 718-739); the
`entries` map is an insertion-ordered list with `entryKey` as the key. -/
def collect (entries : List ModelEntry) (provider modelID displayName source ownedBy :
    String) : List ModelEntry :=
  let normalizedID := normalizeModelID modelID
  if normalizedID = "" then entries
  else
    let key := provider ++ "::" ++ normalizedID
    if entries.any (fun e => entryKey e == key) then
      mergeAt key source displayName entries
    else
      entries ++ [{ provider := provider, id := normalizedID,
                    displayName := jsTrim displayName, ownedBy := jsTrim ownedBy,
                    sources := [source] }]

/-- A record of the OpenAI-format listing (`data` array, lines 741-748);
absent fields are `""`. -/
structure OpenAIModel where
  id : String
  owned_by : String
  display_name : String
deriving Repr, DecidableEq

/-- A record of the Gemini-format listing (`models` array, lines 750-756). -/
structure GeminiModel where
  name : String
  id : String
  owned_by : String
  displayName : String
  display_name : String
deriving Repr, DecidableEq

/-- The OpenAI-response loop of `getProviderModels` (lines 741-748). -/
def collectOpenAI (entries : List ModelEntry) (models : List OpenAIModel) : List ModelEntry :=
  models.foldl (fun acc m =>
    collect acc (inferProviderFromModel m.id m.owned_by) m.id m.display_name "openai"
      m.owned_by) entries

/-- The Gemini-response loop of `getProviderModels` (lines 750-756). -/
def collectGemini (entries : List ModelEntry) (models : List GeminiModel) : List ModelEntry :=
  models.foldl (fun acc m =>
    collect acc (inferProviderFromModel (jsOr m.name m.id) m.owned_by) (jsOr m.name m.id)
      (jsOr m.displayName m.display_name) "gemini" m.owned_by) entries

/-- The `entries` map built by `getProviderModels` (lines 717-756): the
OpenAI response is processed first, then the Gemini response; `none` models
an endpoint whose call failed or whose body had no model array. -/
def aggregateModelEntries (openaiModels : Option (List OpenAIModel))
    (geminiModels : Option (List GeminiModel)) : List ModelEntry :=
  let e1 := match openaiModels with
    | some ms => collectOpenAI [] ms
    | none => []
  match geminiModels with
  | some ms => collectGemini e1 ms
  | none => e1

/-- The key under which the OpenAI loop files a record. -/
def openaiModelKey (m : OpenAIModel) : String :=
  inferProviderFromModel m.id m.owned_by ++ "::" ++ normalizeModelID m.id

/-- The key under which the Gemini loop files a record. -/
def geminiModelKey (m : GeminiModel) : String :=
  inferProviderFromModel (jsOr m.name m.id) m.owned_by ++ "::" ++
    normalizeModelID (jsOr m.name m.id)

theorem mem_addSource_self (ss : List String) (s : String) : s ∈ addSource ss s := by
  unfold addSource
  split_ifs with h
  · exact h
  · exact List.mem_append_right _ (List.mem_singleton_self s)

theorem mem_addSource_of_mem (ss : List String) (s s0 : String) (h : s0 ∈ ss) :
    s0 ∈ addSource ss s := by
  unfold addSource
  split_ifs
  · exact h
  · exact List.mem_append_left _ h

theorem mergeAt_map_key (key s d : String) (es : List ModelEntry) :
    (mergeAt key s d es).map entryKey = es.map entryKey := by
  unfold mergeAt
  rw [List.map_map]
  apply List.map_congr_left
  intro e he
  simp only [Function.comp_apply]
  split_ifs <;> rfl

theorem mergeAt_image (key s d : String) (es : List ModelEntry) (e : ModelEntry)
    (he : e ∈ es) :
    (entryKey e = key ∧
      { e with
        sources := addSource e.sources s
        displayName := if e.displayName = "" ∧ d ≠ "" then d else e.displayName } ∈
          mergeAt key s d es) ∨
    (entryKey e ≠ key ∧ e ∈ mergeAt key s d es) := by
  by_cases hke : entryKey e = key
  · left
    refine ⟨hke, ?_⟩
    have h2 := List.mem_map_of_mem (fun x =>
      if entryKey x == key then
        { x with
          sources := addSource x.sources s
          displayName := if x.displayName = "" ∧ d ≠ "" then d else x.displayName }
      else x) he
    simpa [mergeAt, hke] using h2
  · right
    refine ⟨hke, ?_⟩
    have h2 := List.mem_map_of_mem (fun x =>
      if entryKey x == key then
        { x with
          sources := addSource x.sources s
          displayName := if x.displayName = "" ∧ d ≠ "" then d else x.displayName }
      else x) he
    simpa [mergeAt, hke] using h2

theorem collect_key_nodup (es : List ModelEntry) (p mid d s ob : String)
    (h : (es.map entryKey).Nodup) :
    ((collect es p mid d s ob).map entryKey).Nodup := by
  simp only [collect]
  split_ifs with h1 h2
  · exact h
  · rw [mergeAt_map_key]
    exact h
  · rw [List.map_append, List.nodup_append]
    refine ⟨h, List.nodup_singleton _, ?_⟩
    intro a ha hb
    simp only [List.map_cons, List.map_nil, List.mem_singleton] at hb
    obtain ⟨e, he, hke⟩ := List.mem_map.mp ha
    apply h2
    rw [List.any_eq_true]
    refine ⟨e, he, ?_⟩
    rw [beq_iff_eq, hke, hb]
    rfl

theorem collect_preserves_source (es : List ModelEntry) (p mid d s ob k s0 : String)
    (h : ∃ e ∈ es, entryKey e = k ∧ s0 ∈ e.sources) :
    ∃ e ∈ collect es p mid d s ob, entryKey e = k ∧ s0 ∈ e.sources := by
  obtain ⟨e, he, hk, hs⟩ := h
  simp only [collect]
  split_ifs with h1 h2
  · exact ⟨e, he, hk, hs⟩
  · rcases mergeAt_image (p ++ "::" ++ normalizeModelID mid) s d es e he with
      ⟨hke, hmem⟩ | ⟨hke, hmem⟩
    · exact ⟨_, hmem, hk, mem_addSource_of_mem _ _ _ hs⟩
    · exact ⟨e, hmem, hk, hs⟩
  · exact ⟨e, List.mem_append_left _ he, hk, hs⟩

theorem collect_adds_source (es : List ModelEntry) (p mid d s ob : String)
    (hnid : normalizeModelID mid ≠ "") :
    ∃ e ∈ collect es p mid d s ob,
      entryKey e = p ++ "::" ++ normalizeModelID mid ∧ s ∈ e.sources := by
  simp only [collect]
  rw [if_neg hnid]
  split_ifs with h2
  · obtain ⟨e, he, hke⟩ := List.any_eq_true.mp h2
    rw [beq_iff_eq] at hke
    rcases mergeAt_image (p ++ "::" ++ normalizeModelID mid) s d es e he with
      ⟨_, hmem⟩ | ⟨hke2, _⟩
    · exact ⟨_, hmem, hke, mem_addSource_self _ _⟩
    · exact absurd hke hke2
  · refine ⟨_, List.mem_append_right _ (List.mem_singleton_self _), rfl, ?_⟩
    exact List.mem_singleton_self s

theorem collectOpenAI_key_nodup (ms : List OpenAIModel) (es : List ModelEntry)
    (h : (es.map entryKey).Nodup) : ((collectOpenAI es ms).map entryKey).Nodup := by
  induction ms generalizing es with
  | nil => exact h
  | cons m ms ih => exact ih _ (collect_key_nodup _ _ _ _ _ _ h)

theorem collectGemini_key_nodup (ms : List GeminiModel) (es : List ModelEntry)
    (h : (es.map entryKey).Nodup) : ((collectGemini es ms).map entryKey).Nodup := by
  induction ms generalizing es with
  | nil => exact h
  | cons m ms ih => exact ih _ (collect_key_nodup _ _ _ _ _ _ h)

theorem collectOpenAI_preserves (ms : List OpenAIModel) (es : List ModelEntry)
    (k s0 : String) (h : ∃ e ∈ es, entryKey e = k ∧ s0 ∈ e.sources) :
    ∃ e ∈ collectOpenAI es ms, entryKey e = k ∧ s0 ∈ e.sources := by
  induction ms generalizing es with
  | nil => exact h
  | cons m ms ih => exact ih _ (collect_preserves_source _ _ _ _ _ _ _ _ h)

theorem collectGemini_preserves (ms : List GeminiModel) (es : List ModelEntry)
    (k s0 : String) (h : ∃ e ∈ es, entryKey e = k ∧ s0 ∈ e.sources) :
    ∃ e ∈ collectGemini es ms, entryKey e = k ∧ s0 ∈ e.sources := by
  induction ms generalizing es with
  | nil => exact h
  | cons m ms ih => exact ih _ (collect_preserves_source _ _ _ _ _ _ _ _ h)

theorem collectOpenAI_adds (ms : List OpenAIModel) (es : List ModelEntry)
    (m1 : OpenAIModel) (hm : m1 ∈ ms) (hnid : normalizeModelID m1.id ≠ "") :
    ∃ e ∈ collectOpenAI es ms, entryKey e = openaiModelKey m1 ∧ "openai" ∈ e.sources := by
  induction ms generalizing es with
  | nil => cases hm
  | cons m ms ih =>
    rcases List.mem_cons.mp hm with rfl | hm2
    · exact collectOpenAI_preserves ms _ _ _ (collect_adds_source es _ _ _ _ _ hnid)
    · exact ih _ hm2

theorem collectGemini_adds (ms : List GeminiModel) (es : List ModelEntry)
    (m2 : GeminiModel) (hm : m2 ∈ ms)
    (hnid : normalizeModelID (jsOr m2.name m2.id) ≠ "") :
    ∃ e ∈ collectGemini es ms, entryKey e = geminiModelKey m2 ∧ "gemini" ∈ e.sources := by
  induction ms generalizing es with
  | nil => cases hm
  | cons m ms ih =>
    rcases List.mem_cons.mp hm with rfl | hm2
    · exact collectGemini_preserves ms _ _ _ (collect_adds_source es _ _ _ _ _ hnid)
    · exact ih _ hm2

theorem filter_key_length_one (l : List ModelEntry) (k : String)
    (hnd : (l.map entryKey).Nodup) (hk : k ∈ l.map entryKey) :
    (l.filter (fun e => entryKey e == k)).length = 1 := by
  induction l with
  | nil => cases hk
  | cons x xs ih =>
    simp only [List.map_cons, List.nodup_cons] at hnd
    by_cases hx : entryKey x = k
    · rw [List.filter_cons_of_pos (by simp [hx])]
      have hnil : xs.filter (fun e => entryKey e == k) = [] := by
        rw [List.filter_eq_nil_iff]
        intro e he
        simp only [beq_iff_eq]
        intro hke
        exact hnd.1 (by rw [hx, ← hke]; exact List.mem_map_of_mem entryKey he)
      rw [hnil]
      rfl
    · rw [List.filter_cons_of_neg (by simp [hx])]
      apply ih hnd.2
      rcases List.mem_cons.mp hk with hk1 | hk2
      · exact absurd hk1.symm hx
      · exact hk2

theorem pair_merge_display (n1 : OpenAIModel) (n2 : GeminiModel)
    (h1 : normalizeModelID n1.id ≠ "") (h2 : normalizeModelID (jsOr n2.name n2.id) ≠ "")
    (hk : openaiModelKey n1 = geminiModelKey n2) :
    aggregateModelEntries (some [n1]) (some [n2]) =
      [⟨inferProviderFromModel n1.id n1.owned_by, normalizeModelID n1.id,
        (if jsTrim n1.display_name = "" ∧ jsOr n2.displayName n2.display_name ≠ "" then
          jsOr n2.displayName n2.display_name
        else jsTrim n1.display_name),
        jsTrim n1.owned_by, ["openai", "gemini"]⟩] := by
  have e1eq : collectOpenAI [] [n1] =
      [⟨inferProviderFromModel n1.id n1.owned_by, normalizeModelID n1.id,
        jsTrim n1.display_name, jsTrim n1.owned_by, ["openai"]⟩] := by
    show collect [] (inferProviderFromModel n1.id n1.owned_by) n1.id n1.display_name
      "openai" n1.owned_by = _
    simp only [collect]
    rw [if_neg h1, if_neg (by simp)]
    rfl
  have hbeq : (entryKey ⟨inferProviderFromModel n1.id n1.owned_by, normalizeModelID n1.id,
      jsTrim n1.display_name, jsTrim n1.owned_by, ["openai"]⟩ ==
      inferProviderFromModel (jsOr n2.name n2.id) n2.owned_by ++ "::" ++
        normalizeModelID (jsOr n2.name n2.id)) = true := by
    rw [beq_iff_eq]
    exact hk
  have e2eq : collectGemini
      [⟨inferProviderFromModel n1.id n1.owned_by, normalizeModelID n1.id,
        jsTrim n1.display_name, jsTrim n1.owned_by, ["openai"]⟩] [n2] =
      [⟨inferProviderFromModel n1.id n1.owned_by, normalizeModelID n1.id,
        (if jsTrim n1.display_name = "" ∧ jsOr n2.displayName n2.display_name ≠ "" then
          jsOr n2.displayName n2.display_name
        else jsTrim n1.display_name),
        jsTrim n1.owned_by, ["openai", "gemini"]⟩] := by
    show collect _ (inferProviderFromModel (jsOr n2.name n2.id) n2.owned_by)
      (jsOr n2.name n2.id) (jsOr n2.displayName n2.display_name) "gemini" n2.owned_by = _
    simp only [collect]
    rw [if_neg h2,
      if_pos (by simp only [List.any_cons, List.any_nil, Bool.or_false]; exact hbeq)]
    unfold mergeAt
    simp only [List.map_cons, List.map_nil]
    rw [if_pos hbeq]
    rfl
  show collectGemini (collectOpenAI [] [n1]) [n2] = _
  rw [e1eq, e2eq]

/-- C5: model aggregation de-duplicates by the key `(provider, normalized
id)`: whenever an OpenAI-format record and a Gemini-format record normalize
to the same key, the entries map holds exactly one entry under that key,
its sources contain both endpoint tags, and (for a single same-key pair)
the merged entry keeps the first non-empty display name — the OpenAI one if
non-empty after trimming, else the Gemini one.  The result is a pure
function of the two responses processed in a fixed order, so it does not
depend on which response arrived first. -/
theorem model_aggregation_dedup (o : List OpenAIModel) (g : List GeminiModel)
    (m1 : OpenAIModel) (m2 : GeminiModel) (hm1 : m1 ∈ o) (hm2 : m2 ∈ g)
    (hid1 : normalizeModelID m1.id ≠ "")
    (hid2 : normalizeModelID (jsOr m2.name m2.id) ≠ "")
    (hkey : openaiModelKey m1 = geminiModelKey m2) :
    ((aggregateModelEntries (some o) (some g)).filter
        (fun e => entryKey e == openaiModelKey m1)).length = 1 ∧
    (∀ e ∈ aggregateModelEntries (some o) (some g), entryKey e = openaiModelKey m1 →
      "openai" ∈ e.sources ∧ "gemini" ∈ e.sources) ∧
    (∀ (n1 : OpenAIModel) (n2 : GeminiModel), normalizeModelID n1.id ≠ "" →
      normalizeModelID (jsOr n2.name n2.id) ≠ "" →
      openaiModelKey n1 = geminiModelKey n2 →
      aggregateModelEntries (some [n1]) (some [n2]) =
        [⟨inferProviderFromModel n1.id n1.owned_by, normalizeModelID n1.id,
          (if jsTrim n1.display_name = "" ∧ jsOr n2.displayName n2.display_name ≠ "" then
            jsOr n2.displayName n2.display_name
          else jsTrim n1.display_name),
          jsTrim n1.owned_by, ["openai", "gemini"]⟩]) := by
  have hagg : aggregateModelEntries (some o) (some g) =
      collectGemini (collectOpenAI [] o) g := rfl
  have hnodup : ((collectGemini (collectOpenAI [] o) g).map entryKey).Nodup :=
    collectGemini_key_nodup g _ (collectOpenAI_key_nodup o [] (by simp))
  have hopenai : ∃ e ∈ collectOpenAI [] o,
      entryKey e = openaiModelKey m1 ∧ "openai" ∈ e.sources :=
    collectOpenAI_adds o [] m1 hm1 hid1
  have hpres : ∃ e ∈ collectGemini (collectOpenAI [] o) g,
      entryKey e = openaiModelKey m1 ∧ "openai" ∈ e.sources :=
    collectGemini_preserves g _ _ _ hopenai
  have hgem : ∃ e ∈ collectGemini (collectOpenAI [] o) g,
      entryKey e = geminiModelKey m2 ∧ "gemini" ∈ e.sources :=
    collectGemini_adds g _ m2 hm2 hid2
  obtain ⟨ea, hea, hka, hsa⟩ := hpres
  obtain ⟨eb, heb, hkb, hsb⟩ := hgem
  have hkb2 : entryKey eb = openaiModelKey m1 := by rw [hkb, ← hkey]
  have hab : ea = eb := List.inj_on_of_nodup_map hnodup hea heb (by rw [hka, hkb2])
  refine ⟨?_, ?_, ?_⟩
  · rw [hagg]
    exact filter_key_length_one _ _ hnodup
      (by rw [← hka]; exact List.mem_map_of_mem entryKey hea)
  · intro e he hke
    rw [hagg] at he
    have hee : e = ea := List.inj_on_of_nodup_map hnodup he hea (by rw [hke, hka])
    subst hee
    exact ⟨hsa, by rw [hab]; exact hsb⟩
  · exact fun n1 n2 h1 h2 hk => pair_merge_display n1 n2 h1 h2 hk

/-- Witness for C5 at the spec's concrete example: "gpt-4o" from the OpenAI
endpoint and "models/gpt-4o" from the Gemini endpoint merge into exactly one
codex entry. -/
theorem model_aggregation_dedup_witness :
    ((aggregateModelEntries (some [⟨"gpt-4o", "", ""⟩])
        (some [⟨"models/gpt-4o", "", "", "", ""⟩])).filter
      (fun e => entryKey e == openaiModelKey ⟨"gpt-4o", "", ""⟩)).length = 1 :=
  (model_aggregation_dedup [⟨"gpt-4o", "", ""⟩] [⟨"models/gpt-4o", "", "", "", ""⟩]
    ⟨"gpt-4o", "", ""⟩ ⟨"models/gpt-4o", "", "", "", ""⟩
    (by decide) (by decide) (by decide) (by decide) (by decide)).1

/-- JavaScript `a || b` where `a` may be an absent object field:
`undefined` and `""` both fall through to `b`. -/
def jsOrF (a : Option String) (b : String) : String :=
  match a with
  | some s => if s = "" then b else s
  | none => b

/-- One `runCommand` invocation, recorded so theorems can state that no
subprocess was started. -/
structure Invocation where
  cmd : String
  args : List String
  timeoutMs : Nat
deriving Repr, DecidableEq

/-- The action-result object of `runComposeAction` /
`runDirectContainerAction` / `runContainerAction` (lines 1082-1149);
`none` models an absent field. -/
structure ActionResult where
  ok : Bool
  backend : String
  error : Option String
  code : Option Int
  stdout : Option String
  stderr : Option String
  fallbackFrom : Option String
  fallbackError : Option String
  fallbackTried : Option String
deriving Repr, DecidableEq

/-- The `actions` table of `runComposeAction` (lines 1083-1087). -/
def composeActionArgs (cfg : Config) (action : String) : Option (List String) :=
  if action = "start" then
    some ["compose", "-f", cfg.composeFile, "up", "-d", cfg.defaultService]
  else if action = "stop" then some ["compose", "-f", cfg.composeFile, "stop", cfg.defaultService]
  else if action = "restart" then
    some ["compose", "-f", cfg.composeFile, "restart", cfg.defaultService]
  else none

/-- The `actions` table of `runDirectContainerAction` (lines 1103-1107). -/
def directActionArgs (cfg : Config) (action : String) : Option (List String) :=
  if action = "start" then some ["start", cfg.targetContainer]
  else if action = "stop" then some ["stop", cfg.targetContainer]
  else if action = "restart" then some ["restart", cfg.targetContainer]
  else none

/-- `runComposeAction` (lines 1082-1100); `env` stands for the subprocess
runner, and the second component records the invocations issued. -/
def runComposeAction (env : Invocation → CmdResult) (cfg : Config) (action : String) :
    ActionResult × List Invocation :=
  match composeActionArgs cfg action with
  | none =>
    ({ ok := false, backend := "compose", error := some "unsupported action",
       code := none, stdout := none, stderr := none, fallbackFrom := none,
       fallbackError := none, fallbackTried := none }, [])
  | some args =>
    let r := env ⟨"docker", args, 120000⟩
    ({ ok := r.code == 0, backend := "compose", error := none, code := some r.code,
       stdout := some (jsTrim r.stdout), stderr := some (jsTrim r.stderr),
       fallbackFrom := none, fallbackError := none, fallbackTried := none },
     [⟨"docker", args, 120000⟩])

/-- `runDirectContainerAction` (lines 1102-1120). -/
def runDirectContainerAction (env : Invocation → CmdResult) (cfg : Config)
    (action : String) : ActionResult × List Invocation :=
  match directActionArgs cfg action with
  | none =>
    ({ ok := false, backend := "container", error := some "unsupported action",
       code := none, stdout := none, stderr := none, fallbackFrom := none,
       fallbackError := none, fallbackTried := none }, [])
  | some args =>
    let r := env ⟨"docker", args, 120000⟩
    ({ ok := r.code == 0, backend := "container", error := none, code := some r.code,
       stdout := some (jsTrim r.stdout), stderr := some (jsTrim r.stderr),
       fallbackFrom := none, fallbackError := none, fallbackTried := none },
     [⟨"docker", args, 120000⟩])

/-- `runContainerAction` (lines 1122-1149): mode dispatch with
compose-then-direct fallback. -/
def runContainerAction (env : Invocation → CmdResult) (cfg : Config) (action : String) :
    ActionResult × List Invocation :=
  if cfg.dockerMode = "compose" then runComposeAction env cfg action
  else if cfg.dockerMode = "container" then runDirectContainerAction env cfg action
  else
    let composeRun := runComposeAction env cfg action
    if composeRun.1.ok then composeRun
    else
      let directRun := runDirectContainerAction env cfg action
      if directRun.1.ok then
        ({ directRun.1 with
           fallbackFrom := some "compose"
           fallbackError := some (jsOrF composeRun.1.stderr
             (jsOrF composeRun.1.stdout "compose action failed")) },
         composeRun.2 ++ directRun.2)
      else
        ({ composeRun.1 with
           fallbackTried := some "container"
           fallbackError := some (jsOrF directRun.1.stderr
             (jsOrF directRun.1.stdout "container action failed")) },
         composeRun.2 ++ directRun.2)

/-- C8: in every backend mode (compose, container, or automatic with
fallback), an action name other than start/stop/restart produces a failed
result carrying the error "unsupported action", and no subprocess is ever
invoked. -/
theorem unsupported_action_rejected (env : Invocation → CmdResult) (cfg : Config)
    (action : String) (h1 : action ≠ "start") (h2 : action ≠ "stop")
    (h3 : action ≠ "restart") :
    (runContainerAction env cfg action).1.ok = false ∧
    (runContainerAction env cfg action).1.error = some "unsupported action" ∧
    (runContainerAction env cfg action).2 = [] := by
  have hc : composeActionArgs cfg action = none := by
    unfold composeActionArgs
    rw [if_neg h1, if_neg h2, if_neg h3]
  have hd : directActionArgs cfg action = none := by
    unfold directActionArgs
    rw [if_neg h1, if_neg h2, if_neg h3]
  unfold runContainerAction runComposeAction runDirectContainerAction
  rw [hc, hd]
  split_ifs <;> exact ⟨rfl, rfl, rfl⟩

/-- Witness for C8: the action "destroy" is rejected locally under
automatic mode with a runner that would otherwise succeed. -/
theorem unsupported_action_rejected_witness :
    (runContainerAction (fun _ => ⟨0, "", "", false⟩)
      ⟨"auto", "docker-compose.yml", "api4llm", "api4llm"⟩ "destroy").1.ok = false ∧
    (runContainerAction (fun _ => ⟨0, "", "", false⟩)
      ⟨"auto", "docker-compose.yml", "api4llm", "api4llm"⟩ "destroy").1.error =
        some "unsupported action" ∧
    (runContainerAction (fun _ => ⟨0, "", "", false⟩)
      ⟨"auto", "docker-compose.yml", "api4llm", "api4llm"⟩ "destroy").2 = [] :=
  unsupported_action_rejected (fun _ => ⟨0, "", "", false⟩)
    ⟨"auto", "docker-compose.yml", "api4llm", "api4llm"⟩ "destroy"
    (by decide) (by decide) (by decide)

/-- The character class `[a-zA-Z0-9_.-]` of the log-stream sanitizer
(line 1160). -/
def isAllowedContainerChar (c : Char) : Bool :=
  ('a' ≤ c && c ≤ 'z') || ('A' ≤ c && c ≤ 'Z') || ('0' ≤ c && c ≤ '9') ||
  c == '_' || c == '.' || c == '-'

/-- `replace(/[^a-zA-Z0-9_.-]/g, "")`: drop every character outside the
class. -/
def sanitizeContainerName (s : String) : String :=
  String.mk (s.data.filter isAllowedContainerChar)

/-- The `safeContainer` computation of `streamLogs` (line 1160):
`(containerName || TARGET_CONTAINER).replace(/[^a-zA-Z0-9_.-]/g, "")`. -/
def safeContainerArg (containerName target : String) : String :=
  sanitizeContainerName (jsOr containerName target)

/-- C10 counterexample: for the empty supplied name, the subprocess argument
is the sanitized configured default container ("api4llm"), not the
sanitization of the input (which would be empty). -/
theorem sanitize_empty_name_counterexample :
    safeContainerArg "" "api4llm" ≠ sanitizeContainerName "" := by
  decide

/-- C10 (amended): for every non-empty supplied name the subprocess argument
is exactly the input with all characters outside `[a-zA-Z0-9_.-]` removed;
for the empty name the configured default container is sanitized instead;
in all cases the argument consists only of characters in the class. -/
theorem sanitize_container_argument (name target : String) :
    (name ≠ "" → safeContainerArg name target = sanitizeContainerName name) ∧
    (name = "" → safeContainerArg name target = sanitizeContainerName target) ∧
    (safeContainerArg name target).data.all isAllowedContainerChar = true := by
  refine ⟨?_, ?_, ?_⟩
  · intro h
    unfold safeContainerArg
    rw [jsOr_of_ne _ _ h]
  · intro h
    unfold safeContainerArg
    rw [h, jsOr_empty_left]
  · unfold safeContainerArg sanitizeContainerName
    rw [List.all_eq_true]
    intro c hc
    exact (List.mem_filter.mp hc).2

/-- Witness for C10 (amended): a name with a path traversal and spaces is
reduced to its allowed characters. -/
theorem sanitize_container_argument_witness :
    safeContainerArg "../etc pass" "api4llm" = sanitizeContainerName "../etc pass" ∧
    safeContainerArg "" "api4llm" = sanitizeContainerName "api4llm" :=
  ⟨(sanitize_container_argument "../etc pass" "api4llm").1 (by decide),
   (sanitize_container_argument "" "api4llm").2.1 rfl⟩

/-- `buffer.split(/\r?\n/)` of `streamLogs` (line 1175) over character
lists: split at every newline, consuming one carriage return immediately
before it; a lone carriage return stays inside its line. -/
def splitCRLF : List Char → List (List Char)
  | [] => [[]]
  | '\n' :: rest => [] :: splitCRLF rest
  | '\r' :: '\n' :: rest => [] :: splitCRLF rest
  | c :: rest =>
    match splitCRLF rest with
    | [] => [[c]]
    | l :: ls => (c :: l) :: ls

theorem splitCRLF_cons_general (a : Char) (b : List Char) (h1 : a ≠ '\n')
    (h2 : ∀ rest, a = '\r' → b = '\n' :: rest → False) :
    splitCRLF (a :: b) =
      match splitCRLF b with
      | [] => [[a]]
      | l :: ls => (a :: l) :: ls := by
  rw [splitCRLF.eq_def]
  split
  · rename_i heq
    exact absurd heq (List.cons_ne_nil a b)
  · rename_i rest heq
    injection heq with ha hb
    exact absurd ha h1
  · rename_i rest heq
    injection heq with ha hb
    exact (h2 rest ha hb).elim
  · rename_i c rest heq
    injection heq with ha hb
    subst ha
    subst hb
    rfl

theorem splitCRLF_ne_nil (u : List Char) : splitCRLF u ≠ [] := by
  induction u using splitCRLF.induct with
  | case1 => simp [splitCRLF]
  | case2 rest ih => simp [splitCRLF]
  | case3 rest ih => simp [splitCRLF]
  | case4 a b h1 h2 hsp ih => exact absurd hsp ih
  | case5 a b h1 h2 l ls hsp ih =>
    rw [splitCRLF_cons_general a b (fun h => h1 h) h2, hsp]
    simp

theorem splitCRLF_no_newline (u : List Char) :
    ∀ l ∈ splitCRLF u, '\n' ∉ l := by
  induction u using splitCRLF.induct with
  | case1 =>
    intro l hl
    simp only [splitCRLF, List.mem_singleton] at hl
    simp [hl]
  | case2 rest ih =>
    intro l hl
    simp only [splitCRLF, List.mem_cons] at hl
    rcases hl with rfl | hl
    · simp
    · exact ih l hl
  | case3 rest ih =>
    intro l hl
    simp only [splitCRLF, List.mem_cons] at hl
    rcases hl with rfl | hl
    · simp
    · exact ih l hl
  | case4 a b h1 h2 hsp ih => exact absurd hsp (splitCRLF_ne_nil b)
  | case5 a b h1 h2 l0 ls hsp ih =>
    intro l hl
    rw [splitCRLF_cons_general a b (fun h => h1 h) h2, hsp] at hl
    rcases List.mem_cons.mp hl with rfl | hl2
    · intro hmem
      rcases List.mem_cons.mp hmem with rfl | hmem2
      · exact h1 rfl
      · exact ih l0 (hsp ▸ List.mem_cons_self l0 ls) hmem2
    · exact ih l (hsp ▸ List.mem_cons_of_mem l0 hl2)

theorem splitCRLF_of_no_newline (u : List Char) (h : '\n' ∉ u) : splitCRLF u = [u] := by
  induction u using splitCRLF.induct with
  | case1 => rfl
  | case2 rest ih => exact absurd (List.mem_cons_self _ _) h
  | case3 rest ih =>
    exact absurd (List.mem_cons_of_mem _ (List.mem_cons_self _ _)) h
  | case4 a b h1 h2 hsp ih => exact absurd hsp (splitCRLF_ne_nil b)
  | case5 a b h1 h2 l ls hsp ih =>
    have hb : '\n' ∉ b := fun hmem => h (List.mem_cons_of_mem a hmem)
    have hib := ih hb
    rw [splitCRLF_cons_general a b (fun hh => h1 hh) h2, hsp]
    rw [hib] at hsp
    injection hsp with e1 e2
    subst e1
    subst e2
    rfl

theorem splitCRLF_eq_singleton_empty (b : List Char) (h : splitCRLF b = [[]]) :
    b = [] := by
  induction b using splitCRLF.induct with
  | case1 => rfl
  | case2 rest ih =>
    rw [show splitCRLF ('\n' :: rest) = [] :: splitCRLF rest from rfl] at h
    injection h with e1 e2
    exact absurd e2 (splitCRLF_ne_nil rest)
  | case3 rest ih =>
    rw [show splitCRLF ('\r' :: '\n' :: rest) = [] :: splitCRLF rest from rfl] at h
    injection h with e1 e2
    exact absurd e2 (splitCRLF_ne_nil rest)
  | case4 a b h1 h2 hsp ih => exact absurd hsp (splitCRLF_ne_nil b)
  | case5 a b h1 h2 l ls hsp ih =>
    rw [splitCRLF_cons_general a b (fun hh => h1 hh) h2, hsp] at h
    injection h with e1 e2
    exact absurd e1 (List.cons_ne_nil a l)

/-- Appending input never changes the already-terminated lines: splitting
`u ++ v` is splitting `u`, then re-splitting its unterminated tail together
with `v` (the `\r?\n` lookback is confined to that tail). -/
theorem splitCRLF_append (u v : List Char) :
    splitCRLF (u ++ v) =
      (splitCRLF u).dropLast ++ splitCRLF (((splitCRLF u).getLast?.getD []) ++ v) := by
  induction u using splitCRLF.induct with
  | case1 => simp [splitCRLF]
  | case2 rest ih =>
    obtain ⟨s, S2, hS⟩ := List.exists_cons_of_ne_nil (splitCRLF_ne_nil rest)
    show [] :: splitCRLF (rest ++ v) = _
    rw [show splitCRLF ('\n' :: rest) = [] :: splitCRLF rest from rfl, ih, hS]
    rfl
  | case3 rest ih =>
    obtain ⟨s, S2, hS⟩ := List.exists_cons_of_ne_nil (splitCRLF_ne_nil rest)
    show [] :: splitCRLF (rest ++ v) = _
    rw [show splitCRLF ('\r' :: '\n' :: rest) = [] :: splitCRLF rest from rfl, ih, hS]
    rfl
  | case4 a b h1 h2 hsp ih => exact absurd hsp (splitCRLF_ne_nil b)
  | case5 a b h1 h2 l ls hsp ih =>
    have hu : splitCRLF (a :: b) = (a :: l) :: ls := by
      rw [splitCRLF_cons_general a b (fun hh => h1 hh) h2, hsp]
    rcases Decidable.em (b = []) with rfl | hbne
    · rw [show splitCRLF ([] : List Char) = [[]] from rfl] at hsp
      injection hsp with e1 e2
      subst e1
      subst e2
      rw [hu]
      rfl
    · have hlmem : l ∈ splitCRLF b := by rw [hsp]; exact List.mem_cons_self l ls
      have hlnn : '\n' ∉ l := splitCRLF_no_newline b l hlmem
      have h2v : ∀ rest, a = '\r' → b ++ v = '\n' :: rest → False := by
        intro rest ha hbv
        obtain ⟨b0, b2, rfl⟩ := List.exists_cons_of_ne_nil hbne
        injection hbv with e1 e2
        exact h2 b2 ha (by rw [e1])
      rw [List.cons_append, splitCRLF_cons_general a (b ++ v) (fun hh => h1 hh) h2v,
        ih, hsp, hu]
      rcases ls with _ | ⟨ls0, ls2⟩
      · rcases Decidable.em (l = []) with rfl | hlne
        · exact absurd (splitCRLF_eq_singleton_empty b hsp) hbne
        · obtain ⟨l0, l2, rfl⟩ := List.exists_cons_of_ne_nil hlne
          have hl0 : l0 ≠ '\n' := fun hh => hlnn (hh ▸ List.mem_cons_self l0 l2)
          have hguard : ∀ rest, a = '\r' → (l0 :: l2) ++ v = '\n' :: rest → False := by
            intro rest ha hlv
            injection hlv with e1 e2
            exact hl0 e1
          simp only [List.dropLast_single, List.getLast?_singleton, Option.getD_some,
            List.nil_append]
          rw [show (a :: l0 :: l2) ++ v = a :: ((l0 :: l2) ++ v) from rfl]
          rw [splitCRLF_cons_general a ((l0 :: l2) ++ v) (fun hh => h1 hh) hguard]
      · simp only [List.dropLast_cons₂, List.getLast?_cons_cons, List.cons_append]

/-- One framed server-sent event of `streamLogs`: the `kind` and `line`
fields of the JSON payload (the wall-clock `ts` field is outside this
model). -/
structure LogEvent where
  kind : String
  line : String
deriving Repr, DecidableEq

/-- `flushChunk` (lines 1173-1183): append the chunk to the shared buffer,
split on `\r?\n`, keep the unterminated tail as the new buffer (the
`parts.pop() || ""`), and emit each non-empty completed line under the
channel's kind. -/
def flushChunk (buffer chunk kind : String) : String × List LogEvent :=
  let parts := splitCRLF (buffer.data ++ chunk.data)
  (String.mk (parts.getLast?.getD []),
   (parts.dropLast.filter (fun l => !l.isEmpty)).map (fun l => LogEvent.mk kind (String.mk l)))

/-- Feeding a sequence of (chunk, kind) data events through the single
shared buffer of `streamLogs`. -/
def feedChunks : String → List (String × String) → String × List LogEvent
  | buffer, [] => (buffer, [])
  | buffer, (chunk, kind) :: rest =>
    let r1 := flushChunk buffer chunk kind
    let r2 := feedChunks r1.1 rest
    (r2.1, r1.2 ++ r2.2)

/-- Concatenation of a chunk sequence into one chunk. -/
def concatChunks : List String → String
  | [] => ""
  | c :: cs => c ++ concatChunks cs

/-- The terminal status line `log stream ended (exit code ...)`
(line 1193). -/
def statusLine (code : Option Int) : String :=
  match code with
  | some c => s!"log stream ended (exit code {c})"
  | none => "log stream ended (exit code unknown)"

/-- The close handler of `streamLogs` (lines 1188-1195): flush the trimmed
trailing buffer as a final log line when non-empty, then emit the terminal
status event. -/
def closeEvents (buffer : String) (code : Option Int) : List LogEvent :=
  (if jsTrim buffer ≠ "" then [LogEvent.mk "log" (jsTrim buffer)] else []) ++
  [LogEvent.mk "status" (statusLine code)]

/-- A whole stream session: data events followed by the close handler. -/
def streamRun (chunks : List (String × String)) (code : Option Int) : List LogEvent :=
  (feedChunks "" chunks).2 ++ closeEvents (feedChunks "" chunks).1 code

theorem mem_of_getLast?_eq {α : Type} {l : List α} {a : α} (h : l.getLast? = some a) :
    a ∈ l := by
  obtain ⟨hne, rfl⟩ := List.mem_getLast?_eq_getLast (l := l) (x := a) h
  exact List.getLast_mem hne

theorem flushChunk_buffer_no_newline (b c kind : String) :
    '\n' ∉ ((flushChunk b c kind).1).data := by
  unfold flushChunk
  intro hmem
  rcases hL : (splitCRLF (b.data ++ c.data)).getLast? with _ | L
  · simp only [hL, Option.getD_none] at hmem
    cases hmem
  · simp only [hL, Option.getD_some] at hmem
    exact splitCRLF_no_newline _ L (mem_of_getLast?_eq hL) hmem

/-- Processing `c1 ++ c2` in one call equals processing `c1` then `c2`:
the framing is insensitive to chunk boundaries. -/
theorem flushChunk_append (b c1 c2 kind : String) :
    flushChunk b (c1 ++ c2) kind =
      ((flushChunk (flushChunk b c1 kind).1 c2 kind).1,
       (flushChunk b c1 kind).2 ++ (flushChunk (flushChunk b c1 kind).1 c2 kind).2) := by
  have hP2 : splitCRLF (((splitCRLF (b.data ++ c1.data)).getLast?.getD []) ++ c2.data) ≠ [] :=
    splitCRLF_ne_nil _
  unfold flushChunk
  simp only [String.data_append]
  rw [← List.append_assoc, splitCRLF_append (b.data ++ c1.data) c2.data]
  rw [Prod.mk.injEq]
  constructor
  · rw [List.getLast?_append_of_ne_nil _ hP2]
  · rw [List.dropLast_append]
    rw [if_neg (by simpa using hP2)]
    rw [List.filter_append, List.map_append]

theorem feedChunks_eq_single (chunks : List String) (kind buffer : String)
    (hb : '\n' ∉ buffer.data) :
    feedChunks buffer (chunks.map (fun c => (c, kind))) =
      flushChunk buffer (concatChunks chunks) kind := by
  induction chunks generalizing buffer with
  | nil =>
    show (buffer, []) = _
    unfold flushChunk concatChunks
    rw [show ("" : String).data = [] from rfl, List.append_nil,
      splitCRLF_of_no_newline buffer.data hb]
    rfl
  | cons c cs ih =>
    simp only [List.map_cons, feedChunks]
    rw [ih _ (flushChunk_buffer_no_newline buffer c kind)]
    rw [show concatChunks (c :: cs) = c ++ concatChunks cs from rfl]
    rw [flushChunk_append buffer c (concatChunks cs) kind]

/-- C6: the stream framing never splits a line.  Concretely, feeding
"abc\nde" then "f\n" emits exactly the lines "abc" then "def" followed by
the terminal status event.  In general, feeding any chunk sequence through
the buffer is equivalent to feeding their concatenation as one chunk (so a
line is only ever emitted once its terminator has arrived), every emitted
line is free of embedded newlines, and on close the trailing unterminated
buffer text (trimmed) is flushed as a final log line before the terminal
status event carrying the exit code. -/
theorem log_framing_never_splits :
    streamRun [("abc\nde", "log"), ("f\n", "log")] (some 0) =
      [LogEvent.mk "log" "abc", LogEvent.mk "log" "def",
       LogEvent.mk "status" "log stream ended (exit code 0)"] ∧
    (∀ (chunks : List String) (kind buffer : String), '\n' ∉ buffer.data →
      feedChunks buffer (chunks.map (fun c => (c, kind))) =
        flushChunk buffer (concatChunks chunks) kind) ∧
    (∀ (b c kind : String), ∀ ev ∈ (flushChunk b c kind).2, '\n' ∉ ev.line.data) ∧
    (∀ (chunks : List (String × String)) (code : Option Int),
      streamRun chunks code =
        (feedChunks "" chunks).2 ++ closeEvents (feedChunks "" chunks).1 code) ∧
    (∀ (buffer : String) (code : Option Int),
      (jsTrim buffer ≠ "" → closeEvents buffer code =
        [LogEvent.mk "log" (jsTrim buffer), LogEvent.mk "status" (statusLine code)]) ∧
      (jsTrim buffer = "" → closeEvents buffer code =
        [LogEvent.mk "status" (statusLine code)])) := by
  refine ⟨by decide, feedChunks_eq_single, ?_, fun chunks code => rfl, ?_⟩
  · intro b c kind ev hev
    unfold flushChunk at hev
    obtain ⟨l, hl, rfl⟩ := List.mem_map.mp hev
    have hl2 := (List.mem_filter.mp hl).1
    have hl3 : l ∈ splitCRLF (b.data ++ c.data) := (List.dropLast_sublist _).subset hl2
    exact splitCRLF_no_newline _ l hl3
  · intro buffer code
    constructor
    · intro h
      simp [closeEvents, h]
    · intro h
      simp [closeEvents, h]

/-- Witness for C6's general framing conjunct at concrete chunks: "ab" then
"c\nd" processed incrementally equals the single-chunk processing of
"abc\nd". -/
theorem log_framing_never_splits_witness :
    feedChunks "" (["ab", "c\nd"].map (fun c => (c, "log"))) =
      flushChunk "" (concatChunks ["ab", "c\nd"]) "log" :=
  log_framing_never_splits.2.1 ["ab", "c\nd"] "log" "" (by decide)

end Api4LLM
